import Mathlib

/-!
Verification of the valuation core of `renditerechner.py`.

The two projection routines `project_kgv_scenario` and `project_dcf_scenario`
are embedded over the rationals.  Python float division raises
`ZeroDivisionError` when the denominator is zero; the unguarded divisions of
the source (discounting by `r ** years` and `r ** year`) are therefore
modelled with `Option`: `none` stands for the exception escaping the routine.
The share divisions are guarded in the source (`if shares > 0 else 0.0`) and
never fail.
-/

namespace Renditerechner

/-- One row of the per-year projection table built by both projectors
(`records.append({...})` in the source): year index, revenue (Umsatz),
net income, share count, earnings per share and free cash flow. -/
structure YearRecord where
  jahr : ℕ
  umsatz : ℚ
  netIncome : ℚ
  shares : ℚ
  eps : ℚ
  fcf : ℚ
  deriving Repr, DecidableEq

/-- Inputs of `project_kgv_scenario` (the horizon `years` is passed
separately as a natural number). -/
structure KgvInputs where
  start_revenue : ℚ
  start_shares : ℚ
  start_net_margin : ℚ
  annual_revenue_growth : ℚ
  annual_dilution : ℚ
  future_pe : ℚ
  discount_rate : ℚ
  margin_of_safety : ℚ
  deriving Repr, DecidableEq

/-- Inputs of `project_dcf_scenario`. -/
structure DcfInputs where
  start_revenue : ℚ
  start_shares : ℚ
  start_net_margin : ℚ
  fcf_margin : ℚ
  annual_revenue_growth : ℚ
  annual_dilution : ℚ
  discount_rate : ℚ
  terminal_growth : ℚ
  margin_of_safety : ℚ
  deriving Repr, DecidableEq

/-- Result triple of either projector: the per-year trace, the fair price
before the safety margin, and the fair price after the safety margin. -/
structure ProjResult where
  records : List YearRecord
  fair_price_today : ℚ
  fair_price_mos : ℚ
  deriving Repr, DecidableEq

/-- `g = 1 + annual_revenue_growth / 100.0` of the KGV routine. -/
def kgvG (inp : KgvInputs) : ℚ := 1 + inp.annual_revenue_growth / 100

/-- `d = 1 + annual_dilution / 100.0` of the KGV routine. -/
def kgvD (inp : KgvInputs) : ℚ := 1 + inp.annual_dilution / 100

/-- `r = 1 + discount_rate / 100.0` of the KGV routine. -/
def kgvR (inp : KgvInputs) : ℚ := 1 + inp.discount_rate / 100

/-- `g = 1 + annual_revenue_growth / 100.0` of the DCF routine. -/
def dcfG (inp : DcfInputs) : ℚ := 1 + inp.annual_revenue_growth / 100

/-- `d = 1 + annual_dilution / 100.0` of the DCF routine. -/
def dcfD (inp : DcfInputs) : ℚ := 1 + inp.annual_dilution / 100

/-- `r = 1 + discount_rate / 100.0` of the DCF routine. -/
def dcfR (inp : DcfInputs) : ℚ := 1 + inp.discount_rate / 100

/-- Loop body of `project_kgv_scenario`: the record appended for one year.
`net_income = revenue * net_margin_decimal`; `eps = net_income / shares if
shares > 0 else 0.0`; the KGV model records `FCF = 0.0`. -/
def kgvStep (inp : KgvInputs) (revenue shares : ℚ) (year : ℕ) : YearRecord :=
  let net_income := revenue * (inp.start_net_margin / 100)
  let eps := if 0 < shares then net_income / shares else 0
  { jahr := year, umsatz := revenue, netIncome := net_income,
    shares := shares, eps := eps, fcf := 0 }

/-- The `for year in range(0, years+1)` loop of `project_kgv_scenario`,
with `n` iterations left: append the record for the current state, then
advance `revenue *= g` and `shares *= d`. -/
def kgvRecordsAux (inp : KgvInputs) : ℕ → ℚ → ℚ → ℕ → List YearRecord
  | 0, _, _, _ => []
  | n + 1, revenue, shares, year =>
      kgvStep inp revenue shares year ::
        kgvRecordsAux inp n (revenue * kgvG inp) (shares * kgvD inp) (year + 1)

/-- The full trace of `project_kgv_scenario`: `years + 1` records,
years `0` to `years` inclusive, starting from the status-quo figures. -/
def kgvRecords (inp : KgvInputs) (years : ℕ) : List YearRecord :=
  kgvRecordsAux inp (years + 1) inp.start_revenue inp.start_shares 0

/-- Placeholder record; `records[-1]` is only read on a provably
nonempty list. -/
def defaultRecord : YearRecord :=
  { jahr := 0, umsatz := 0, netIncome := 0, shares := 0, eps := 0, fcf := 0 }

/-- `project_kgv_scenario(start_revenue, ..., years)`: build the trace,
take the final record, form `future_price` (0 when `final_shares <= 0`),
discount by `r ** years` and apply the margin of safety.  The unguarded
`future_price / (r ** years)` raises `ZeroDivisionError` in Python when
`r ** years == 0`; that path is `none`. -/
def project_kgv_scenario (inp : KgvInputs) (years : ℕ) : Option ProjResult :=
  let records := kgvRecords inp years
  let lastRec := records.getLast?.getD defaultRecord
  let final_net_income := lastRec.netIncome
  let final_shares := lastRec.shares
  let future_price :=
    if 0 < final_shares then final_net_income * inp.future_pe / final_shares else 0
  if kgvR inp ^ years = 0 then none
  else
    let fair_price_today := future_price / kgvR inp ^ years
    let mos_factor := 1 - inp.margin_of_safety / 100
    some { records := records, fair_price_today := fair_price_today,
           fair_price_mos := fair_price_today * mos_factor }

/-- Loop body of `project_dcf_scenario`: the record appended for one year,
built from the already advanced revenue and share count. -/
def dcfStep (inp : DcfInputs) (revenue shares : ℚ) (year : ℕ) : YearRecord :=
  let net_income := revenue * (inp.start_net_margin / 100)
  let fcf := revenue * (inp.fcf_margin / 100)
  let eps := if 0 < shares then net_income / shares else 0
  { jahr := year, umsatz := revenue, netIncome := net_income,
    shares := shares, eps := eps, fcf := fcf }

/-- The `for year in range(1, years+1)` loop of `project_dcf_scenario`,
with `n` iterations left: advance `revenue *= g` and `shares *= d` at the
start of the period, discount the free cash flow by `r ** year`
(`none` when that power is zero: Python raises `ZeroDivisionError`),
accumulate the net present value and append the record. -/
def dcfLoop (inp : DcfInputs) : ℕ → ℚ → ℚ → ℕ → ℚ → Option (List YearRecord × ℚ)
  | 0, _, _, _, npv => some ([], npv)
  | n + 1, revenue, shares, year, npv =>
      if dcfR inp ^ year = 0 then none
      else
        match dcfLoop inp n (revenue * dcfG inp) (shares * dcfD inp) (year + 1)
            (npv + revenue * dcfG inp * (inp.fcf_margin / 100) / dcfR inp ^ year) with
        | none => none
        | some (rest, npvFinal) =>
            some (dcfStep inp (revenue * dcfG inp) (shares * dcfD inp) year :: rest, npvFinal)

/-- Terminal-value block of `project_dcf_scenario`: when
`discount_rate > terminal_growth`, the Gordon-growth value of the last
free cash flow, discounted by `r ** years` (`none` when that power is
zero); otherwise `tv_pv = 0.0`. -/
def terminalValuePv (inp : DcfInputs) (years : ℕ) (fcf_last : ℚ) : Option ℚ :=
  if inp.terminal_growth < inp.discount_rate then
    let tv := fcf_last * (1 + inp.terminal_growth / 100) /
      (inp.discount_rate / 100 - inp.terminal_growth / 100)
    if dcfR inp ^ years = 0 then none else some (tv / dcfR inp ^ years)
  else some 0

/-- `project_dcf_scenario(start_revenue, ..., years)`: run the yearly loop,
add the discounted terminal value to the accumulated net present value,
divide by the final share count (0 when `final_shares <= 0`) and apply the
margin of safety.  `fcf_last` and `final_shares` fall back to `0.0` and
`start_shares` on an empty trace, as in the source. -/
def project_dcf_scenario (inp : DcfInputs) (years : ℕ) : Option ProjResult :=
  match dcfLoop inp years inp.start_revenue inp.start_shares 1 0 with
  | none => none
  | some (records, npv) =>
    let fcf_last := (records.getLast?.map YearRecord.fcf).getD 0
    match terminalValuePv inp years fcf_last with
    | none => none
    | some tv_pv =>
      let total_value := npv + tv_pv
      let final_shares := (records.getLast?.map YearRecord.shares).getD inp.start_shares
      let fair_price_today := if 0 < final_shares then total_value / final_shares else 0
      let mos_factor := 1 - inp.margin_of_safety / 100
      some { records := records, fair_price_today := fair_price_today,
             fair_price_mos := fair_price_today * mos_factor }

/-- Modelled from the spec: the Interpolator component (spec section 4.1) has
no counterpart in the source file; `interpolate(start, end, t, horizon) =
start + (end - start) * t / horizon`, used to state what the spec asserts
about per-year assumption values. -/
def interpolate (start stop : ℚ) (t horizon : ℕ) : ℚ :=
  start + (stop - start) * (t : ℚ) / (horizon : ℚ)

/-- The net margin a recorded year actually used, in percent, recovered from
the record as `100 * netIncome / umsatz` (0 when the revenue is zero). -/
def recordMargin (rec : YearRecord) : ℚ :=
  if rec.umsatz ≠ 0 then 100 * rec.netIncome / rec.umsatz else 0

/-- The net margin the KGV projector used at year `t` of its trace. -/
def kgvMarginAt (inp : KgvInputs) (years t : ℕ) : ℚ :=
  match (kgvRecords inp years).get? t with
  | some rec => recordMargin rec
  | none => 0

/-- The undiscounted future price of the KGV method, in closed form:
final net income times the future multiple over the final share count
(0 when the final share count is not positive). -/
def kgvFuturePrice (inp : KgvInputs) (years : ℕ) : ℚ :=
  if 0 < inp.start_shares * kgvD inp ^ years then
    inp.start_revenue * kgvG inp ^ years * (inp.start_net_margin / 100) * inp.future_pe
      / (inp.start_shares * kgvD inp ^ years)
  else 0

/-- The accumulated net present value of the DCF method, in closed form:
the sum over years 1..horizon of that year's free cash flow discounted
to today. -/
def dcfNpv (inp : DcfInputs) (years : ℕ) : ℚ :=
  ∑ t ∈ Finset.Icc 1 years,
    inp.start_revenue * dcfG inp ^ t * (inp.fcf_margin / 100) / dcfR inp ^ t

/-- The discounted terminal value of the DCF method, in closed form,
for a horizon of at least one year (the last free cash flow is then
`start_revenue * g ^ years * fcf_margin / 100`). -/
def dcfTvPvValue (inp : DcfInputs) (years : ℕ) : ℚ :=
  if inp.terminal_growth < inp.discount_rate then
    inp.start_revenue * dcfG inp ^ years * (inp.fcf_margin / 100)
        * (1 + inp.terminal_growth / 100)
        / (inp.discount_rate / 100 - inp.terminal_growth / 100) / dcfR inp ^ years
  else 0

/-- The fair price of the DCF method, in closed form, for a horizon of at
least one year. -/
def dcfFairToday (inp : DcfInputs) (years : ℕ) : ℚ :=
  if 0 < inp.start_shares * dcfD inp ^ years then
    (dcfNpv inp years + dcfTvPvValue inp years) / (inp.start_shares * dcfD inp ^ years)
  else 0

/-! ### Concrete inputs used to exercise the theorems -/

/-- A base KGV input: revenue 100, 10 shares, 10 percent margin, no growth or
dilution, future multiple 15, discount rate 0, margin of safety 20. -/
def inK_base : KgvInputs :=
  { start_revenue := 100, start_shares := 10, start_net_margin := 10,
    annual_revenue_growth := 0, annual_dilution := 0, future_pe := 15,
    discount_rate := 0, margin_of_safety := 20 }

/-- A base DCF input: revenue 100, 10 shares, margins 10 percent, no growth or
dilution, discount rate 0 below terminal growth 2, margin of safety 20. -/
def inD_base : DcfInputs :=
  { start_revenue := 100, start_shares := 10, start_net_margin := 10,
    fcf_margin := 10, annual_revenue_growth := 0, annual_dilution := 0,
    discount_rate := 0, terminal_growth := 2, margin_of_safety := 20 }

/-- KGV input with discount rate -100: the discount factor is 0. -/
def inK_neg100 : KgvInputs :=
  { start_revenue := 100, start_shares := 10, start_net_margin := 10,
    annual_revenue_growth := 0, annual_dilution := 0, future_pe := 15,
    discount_rate := -100, margin_of_safety := 0 }

/-- DCF input with discount rate -100: the discount factor is 0. -/
def inD_neg100 : DcfInputs :=
  { start_revenue := 100, start_shares := 10, start_net_margin := 10,
    fcf_margin := 10, annual_revenue_growth := 0, annual_dilution := 0,
    discount_rate := -100, terminal_growth := 2, margin_of_safety := 0 }

/-- KGV input with zero shares and discount rate -100. -/
def inK_zs_neg100 : KgvInputs :=
  { start_revenue := 100, start_shares := 0, start_net_margin := 10,
    annual_revenue_growth := 0, annual_dilution := 0, future_pe := 15,
    discount_rate := -100, margin_of_safety := 0 }

/-- DCF input with zero shares and discount rate -100. -/
def inD_zs_neg100 : DcfInputs :=
  { start_revenue := 100, start_shares := 0, start_net_margin := 10,
    fcf_margin := 10, annual_revenue_growth := 0, annual_dilution := 0,
    discount_rate := -100, terminal_growth := 2, margin_of_safety := 0 }

/-- KGV input with zero shares and an ordinary discount rate. -/
def inK_zeroShares : KgvInputs :=
  { start_revenue := 100, start_shares := 0, start_net_margin := 10,
    annual_revenue_growth := 0, annual_dilution := 0, future_pe := 15,
    discount_rate := 0, margin_of_safety := 10 }

/-- DCF input with zero shares and an ordinary discount rate. -/
def inD_zeroShares : DcfInputs :=
  { start_revenue := 100, start_shares := 0, start_net_margin := 10,
    fcf_margin := 10, annual_revenue_growth := 0, annual_dilution := 0,
    discount_rate := 0, terminal_growth := 2, margin_of_safety := 10 }

/-- KGV input with margin of safety 0. -/
def inK_mos0 : KgvInputs :=
  { start_revenue := 100, start_shares := 10, start_net_margin := 10,
    annual_revenue_growth := 0, annual_dilution := 0, future_pe := 15,
    discount_rate := 0, margin_of_safety := 0 }

/-- DCF input with margin of safety 0. -/
def inD_mos0 : DcfInputs :=
  { start_revenue := 100, start_shares := 10, start_net_margin := 10,
    fcf_margin := 10, annual_revenue_growth := 0, annual_dilution := 0,
    discount_rate := 0, terminal_growth := 2, margin_of_safety := 0 }

/-- DCF input with discount rate 1 below terminal growth 2. -/
def inD_tgAbove : DcfInputs :=
  { start_revenue := 100, start_shares := 10, start_net_margin := 10,
    fcf_margin := 10, annual_revenue_growth := 0, annual_dilution := 0,
    discount_rate := 1, terminal_growth := 2, margin_of_safety := 0 }

/-- DCF input with discount rate 8 above terminal growth 2. -/
def inD_tgBelow : DcfInputs :=
  { start_revenue := 100, start_shares := 10, start_net_margin := 10,
    fcf_margin := 10, annual_revenue_growth := 0, annual_dilution := 0,
    discount_rate := 8, terminal_growth := 2, margin_of_safety := 0 }

/-! ### Structural lemmas about the KGV trace -/

theorem kgvRecordsAux_length (inp : KgvInputs) (n : ℕ) :
    ∀ (rev sh : ℚ) (year : ℕ), (kgvRecordsAux inp n rev sh year).length = n := by
  induction n with
  | zero => intro rev sh year; rfl
  | succ n ih => intro rev sh year; simp [kgvRecordsAux, ih]

theorem kgvRecordsAux_get? (inp : KgvInputs) (n : ℕ) :
    ∀ (i : ℕ) (rev sh : ℚ) (year : ℕ), i < n →
      (kgvRecordsAux inp n rev sh year).get? i =
        some (kgvStep inp (rev * kgvG inp ^ i) (sh * kgvD inp ^ i) (year + i)) := by
  induction n with
  | zero => intro i rev sh year hi; exact absurd hi (Nat.not_lt_zero i)
  | succ n ih =>
    intro i rev sh year hi
    cases i with
    | zero => simp [kgvRecordsAux]
    | succ i =>
      have hi2 : i < n := by omega
      have e1 : rev * kgvG inp * kgvG inp ^ i = rev * kgvG inp ^ (i + 1) := by ring
      have e2 : sh * kgvD inp * kgvD inp ^ i = sh * kgvD inp ^ (i + 1) := by ring
      have e3 : year + 1 + i = year + (i + 1) := by omega
      calc (kgvRecordsAux inp (n + 1) rev sh year).get? (i + 1)
          = (kgvRecordsAux inp n (rev * kgvG inp) (sh * kgvD inp) (year + 1)).get? i := rfl
        _ = some (kgvStep inp (rev * kgvG inp * kgvG inp ^ i)
              (sh * kgvD inp * kgvD inp ^ i) (year + 1 + i)) :=
            ih i (rev * kgvG inp) (sh * kgvD inp) (year + 1) hi2
        _ = some (kgvStep inp (rev * kgvG inp ^ (i + 1))
              (sh * kgvD inp ^ (i + 1)) (year + (i + 1))) := by rw [e1, e2, e3]

theorem kgvRecords_length (inp : KgvInputs) (years : ℕ) :
    (kgvRecords inp years).length = years + 1 :=
  kgvRecordsAux_length inp (years + 1) inp.start_revenue inp.start_shares 0

theorem kgvRecords_get? (inp : KgvInputs) (years t : ℕ) (ht : t ≤ years) :
    (kgvRecords inp years).get? t =
      some (kgvStep inp (inp.start_revenue * kgvG inp ^ t)
        (inp.start_shares * kgvD inp ^ t) t) := by
  have h := kgvRecordsAux_get? inp (years + 1) t inp.start_revenue inp.start_shares 0
    (by omega)
  simpa [kgvRecords] using h

theorem kgvRecords_ne_nil (inp : KgvInputs) (years : ℕ) :
    kgvRecords inp years ≠ [] := by
  intro h
  have := kgvRecords_length inp years
  rw [h] at this
  simp at this

theorem kgvRecords_getLast (inp : KgvInputs) (years : ℕ) :
    (kgvRecords inp years).getLast?.getD defaultRecord =
      kgvStep inp (inp.start_revenue * kgvG inp ^ years)
        (inp.start_shares * kgvD inp ^ years) years := by
  have hlen := kgvRecords_length inp years
  have hget := kgvRecords_get? inp years years (le_refl years)
  have hlast : (kgvRecords inp years).getLast? =
      (kgvRecords inp years).get? ((kgvRecords inp years).length - 1) := by
    rw [List.getLast?_eq_get?]
  rw [hlast, hlen, Nat.add_sub_cancel, hget]
  rfl

/-- Closed form of the whole KGV routine when the discount factor is
nonzero (otherwise the routine raises). -/
theorem project_kgv_eq (inp : KgvInputs) (years : ℕ) (hpow : kgvR inp ^ years ≠ 0) :
    project_kgv_scenario inp years =
      some { records := kgvRecords inp years,
             fair_price_today := kgvFuturePrice inp years / kgvR inp ^ years,
             fair_price_mos := kgvFuturePrice inp years / kgvR inp ^ years
               * (1 - inp.margin_of_safety / 100) } := by
  simp only [project_kgv_scenario, kgvRecords_getLast inp years, if_neg hpow,
    kgvStep, kgvFuturePrice]

/-! ### Structural lemmas about the DCF loop -/

theorem dcfLoop_eq (inp : DcfInputs) (hr : dcfR inp ≠ 0) (n : ℕ) :
    ∀ (rev sh npv : ℚ) (year : ℕ),
      dcfLoop inp n rev sh year npv =
        some (((List.range n).map fun j =>
                dcfStep inp (rev * dcfG inp ^ (j + 1)) (sh * dcfD inp ^ (j + 1)) (year + j)),
              npv + ∑ j ∈ Finset.range n,
                rev * dcfG inp ^ (j + 1) * (inp.fcf_margin / 100) / dcfR inp ^ (year + j)) := by
  induction n with
  | zero => intro rev sh npv year; simp [dcfLoop]
  | succ n ih =>
    intro rev sh npv year
    have hpow : dcfR inp ^ year ≠ 0 := pow_ne_zero year hr
    rw [dcfLoop, if_neg hpow,
      ih (rev * dcfG inp) (sh * dcfD inp)
        (npv + rev * dcfG inp * (inp.fcf_margin / 100) / dcfR inp ^ year) (year + 1)]
    have hlist :
        (dcfStep inp (rev * dcfG inp) (sh * dcfD inp) year ::
            (List.range n).map fun j =>
              dcfStep inp (rev * dcfG inp * dcfG inp ^ (j + 1))
                (sh * dcfD inp * dcfD inp ^ (j + 1)) (year + 1 + j)) =
          (List.range (n + 1)).map fun j =>
            dcfStep inp (rev * dcfG inp ^ (j + 1)) (sh * dcfD inp ^ (j + 1)) (year + j) := by
      rw [List.range_succ_eq_map, List.map_cons, List.map_map]
      refine congrArg₂ List.cons ?_ ?_
      · simp
      · refine List.map_congr_left fun j hj => ?_
        have e1 : rev * dcfG inp * dcfG inp ^ (j + 1) = rev * dcfG inp ^ (j + 1 + 1) := by
          ring
        have e2 : sh * dcfD inp * dcfD inp ^ (j + 1) = sh * dcfD inp ^ (j + 1 + 1) := by
          ring
        have e3 : year + 1 + j = year + (j + 1) := by omega
        simp only [Function.comp_apply, Nat.succ_eq_add_one, e1, e2, e3]
    have hsum :
        npv + rev * dcfG inp * (inp.fcf_margin / 100) / dcfR inp ^ year +
            ∑ j ∈ Finset.range n,
              rev * dcfG inp * dcfG inp ^ (j + 1) * (inp.fcf_margin / 100)
                / dcfR inp ^ (year + 1 + j) =
          npv + ∑ j ∈ Finset.range (n + 1),
            rev * dcfG inp ^ (j + 1) * (inp.fcf_margin / 100) / dcfR inp ^ (year + j) := by
      rw [Finset.sum_range_succ']
      have hterm : ∀ j, rev * dcfG inp ^ (j + 1 + 1) * (inp.fcf_margin / 100)
            / dcfR inp ^ (year + (j + 1)) =
          rev * dcfG inp * dcfG inp ^ (j + 1) * (inp.fcf_margin / 100)
            / dcfR inp ^ (year + 1 + j) := by
        intro j
        have e3 : year + (j + 1) = year + 1 + j := by omega
        rw [e3]; ring
      rw [Finset.sum_congr rfl fun j _ => hterm j]
      simp only [pow_one, Nat.add_zero]
      ring
    exact congrArg some (by rw [hlist, hsum])

theorem getLast?_range_map {α : Type} (f : ℕ → α) (n : ℕ) (hn : 0 < n) :
    ((List.range n).map f).getLast? = some (f (n - 1)) := by
  obtain ⟨m, rfl⟩ : ∃ m, n = m + 1 := ⟨n - 1, by omega⟩
  rw [List.range_succ, List.map_append]
  simp

theorem dcfNpv_eq_range (inp : DcfInputs) (years : ℕ) :
    dcfNpv inp years =
      ∑ j ∈ Finset.range years,
        inp.start_revenue * dcfG inp ^ (j + 1) * (inp.fcf_margin / 100)
          / dcfR inp ^ (1 + j) := by
  unfold dcfNpv
  rw [← Nat.Ico_succ_right, Finset.sum_Ico_eq_sum_range]
  simp only [Nat.succ_sub_one]
  refine Finset.sum_congr rfl fun j hj => ?_
  have e : 1 + j = j + 1 := by omega
  rw [e]

/-- Closed form of the whole DCF routine for a positive horizon when the
discount factor is nonzero (otherwise the routine raises in its first
iteration). -/
theorem project_dcf_eq (inp : DcfInputs) (years : ℕ) (hy : 0 < years)
    (hr : dcfR inp ≠ 0) :
    project_dcf_scenario inp years =
      some { records := (List.range years).map fun j =>
               dcfStep inp (inp.start_revenue * dcfG inp ^ (j + 1))
                 (inp.start_shares * dcfD inp ^ (j + 1)) (1 + j),
             fair_price_today := dcfFairToday inp years,
             fair_price_mos := dcfFairToday inp years
               * (1 - inp.margin_of_safety / 100) } := by
  have hloop := dcfLoop_eq inp hr years inp.start_revenue inp.start_shares 0 1
  have hy1 : years - 1 + 1 = years := by omega
  have hlast := getLast?_range_map
    (fun j => dcfStep inp (inp.start_revenue * dcfG inp ^ (j + 1))
      (inp.start_shares * dcfD inp ^ (j + 1)) (1 + j)) years hy
  unfold project_dcf_scenario
  rw [hloop]
  have hfcf : ((((List.range years).map fun j =>
        dcfStep inp (inp.start_revenue * dcfG inp ^ (j + 1))
          (inp.start_shares * dcfD inp ^ (j + 1)) (1 + j)).getLast?.map
            YearRecord.fcf).getD 0) =
      inp.start_revenue * dcfG inp ^ years * (inp.fcf_margin / 100) := by
    rw [hlast]
    simp [dcfStep, hy1]
  have hsh : ((((List.range years).map fun j =>
        dcfStep inp (inp.start_revenue * dcfG inp ^ (j + 1))
          (inp.start_shares * dcfD inp ^ (j + 1)) (1 + j)).getLast?.map
            YearRecord.shares).getD inp.start_shares) =
      inp.start_shares * dcfD inp ^ years := by
    rw [hlast]
    simp [dcfStep, hy1]
  have htv : terminalValuePv inp years
        (inp.start_revenue * dcfG inp ^ years * (inp.fcf_margin / 100)) =
      some (dcfTvPvValue inp years) := by
    unfold terminalValuePv dcfTvPvValue
    by_cases hgt : inp.terminal_growth < inp.discount_rate
    · rw [if_pos hgt, if_pos hgt, if_neg (pow_ne_zero years hr)]
    · rw [if_neg hgt, if_neg hgt]
  have hnpv : (0 : ℚ) + ∑ j ∈ Finset.range years,
        inp.start_revenue * dcfG inp ^ (j + 1) * (inp.fcf_margin / 100)
          / dcfR inp ^ (1 + j) = dcfNpv inp years := by
    rw [zero_add, dcfNpv_eq_range]
  simp only [hfcf, hsh, htv, hnpv, dcfFairToday]

/-- The DCF routine at horizon 0: empty trace, zero net present value, zero
terminal value, fair price 0. -/
theorem project_dcf_zero (inp : DcfInputs) :
    project_dcf_scenario inp 0 =
      some { records := [], fair_price_today := 0, fair_price_mos := 0 } := by
  unfold project_dcf_scenario dcfLoop terminalValuePv
  simp

/-! ### Helper lemmas about recorded margins and divisions by zero -/

theorem recordMargin_kgvStep (inp : KgvInputs) (rev sh : ℚ) (year : ℕ)
    (h : rev ≠ 0) : recordMargin (kgvStep inp rev sh year) = inp.start_net_margin := by
  simp only [recordMargin, kgvStep, if_pos h]
  field_simp

theorem recordMargin_dcfStep (inp : DcfInputs) (rev sh : ℚ) (year : ℕ)
    (h : rev ≠ 0) : recordMargin (dcfStep inp rev sh year) = inp.start_net_margin := by
  simp only [recordMargin, dcfStep, if_pos h]
  field_simp

theorem interpolate_self (m : ℚ) (t horizon : ℕ) : interpolate m m t horizon = m := by
  simp [interpolate]

theorem kgvRecordsAux_map_fcf (inp : KgvInputs) (n : ℕ) :
    ∀ (rev sh : ℚ) (year : ℕ),
      (kgvRecordsAux inp n rev sh year).map YearRecord.fcf = List.replicate n 0 := by
  induction n with
  | zero => intro rev sh year; rfl
  | succ n ih =>
    intro rev sh year
    simp [kgvRecordsAux, kgvStep, ih, List.replicate_succ]

/-! ### Claim theorems -/

/-- C10: for every input to the KGV projector, the FCF field of every year
record in the returned trace is exactly 0, regardless of revenue, margins,
growth or horizon. -/
theorem kgv_trace_fcf_all_zero (inp : KgvInputs) (years : ℕ) :
    (kgvRecords inp years).map YearRecord.fcf = List.replicate (years + 1) 0 :=
  kgvRecordsAux_map_fcf inp (years + 1) inp.start_revenue inp.start_shares 0

/-- C2: for every input on which the discounting is defined, the KGV
projector computes its result from the final year record: terminal market
cap is the final net income (start revenue compounded by the growth factor,
times the margin) times the future multiple; future price divides that by
the final share count (0 when the final share count is not positive); fair
price today divides the future price by the discount factor to the power of
the horizon. -/
theorem kgv_result_formula (inp : KgvInputs) (years : ℕ)
    (hr : kgvR inp ^ years ≠ 0) :
    ∃ res, project_kgv_scenario inp years = some res ∧
      res.fair_price_today =
        (if 0 < inp.start_shares * kgvD inp ^ years then
            inp.start_revenue * kgvG inp ^ years * (inp.start_net_margin / 100)
              * inp.future_pe / (inp.start_shares * kgvD inp ^ years)
          else 0) / kgvR inp ^ years := by
  refine ⟨_, project_kgv_eq inp years hr, ?_⟩
  simp only [kgvFuturePrice]

/-- Witness for C2 at a concrete input. -/
theorem kgv_result_formula_witness :
    kgvR inK_mos0 ^ 1 ≠ 0 ∧
    (∃ res, project_kgv_scenario inK_mos0 1 = some res ∧
      res.fair_price_today =
        (if 0 < inK_mos0.start_shares * kgvD inK_mos0 ^ 1 then
            inK_mos0.start_revenue * kgvG inK_mos0 ^ 1 * (inK_mos0.start_net_margin / 100)
              * inK_mos0.future_pe / (inK_mos0.start_shares * kgvD inK_mos0 ^ 1)
          else 0) / kgvR inK_mos0 ^ 1) :=
  ⟨by norm_num [kgvR, inK_mos0], kgv_result_formula inK_mos0 1 (by norm_num [kgvR, inK_mos0])⟩

/-- C9: with discount rate 0 the KGV fair price today equals the undiscounted
future price exactly, for any horizon. -/
theorem kgv_zero_discount_fair_eq_future (inp : KgvInputs) (years : ℕ)
    (h : inp.discount_rate = 0) :
    ∃ res, project_kgv_scenario inp years = some res ∧
      res.fair_price_today = kgvFuturePrice inp years := by
  have hr1 : kgvR inp = 1 := by rw [kgvR, h]; norm_num
  have hr : kgvR inp ^ years ≠ 0 := by rw [hr1]; simp
  refine ⟨_, project_kgv_eq inp years hr, ?_⟩
  simp [hr1]

/-- Witness for C9 at a concrete input. -/
theorem kgv_zero_discount_witness :
    inK_base.discount_rate = 0 ∧
    (∃ res, project_kgv_scenario inK_base 3 = some res ∧
      res.fair_price_today = kgvFuturePrice inK_base 3) :=
  ⟨by norm_num [inK_base], kgv_zero_discount_fair_eq_future inK_base 3 (by norm_num [inK_base])⟩

/-- C8: with margin of safety 0 both projectors return a fair price with
safety margin equal to the fair price without it. -/
theorem mos_zero_prices_equal (inpK : KgvInputs) (inpD : DcfInputs) (years : ℕ)
    (resK resD : ProjResult)
    (hK : inpK.margin_of_safety = 0) (hD : inpD.margin_of_safety = 0)
    (hresK : project_kgv_scenario inpK years = some resK)
    (hresD : project_dcf_scenario inpD years = some resD) :
    resK.fair_price_mos = resK.fair_price_today ∧
    resD.fair_price_mos = resD.fair_price_today := by
  constructor
  · by_cases hp : kgvR inpK ^ years = 0
    · rw [project_kgv_scenario] at hresK
      simp [hp] at hresK
    · rw [project_kgv_eq inpK years hp, Option.some.injEq] at hresK
      subst hresK
      simp [hK]
  · cases years with
    | zero =>
      rw [project_dcf_zero, Option.some.injEq] at hresD
      subst hresD
      rfl
    | succ n =>
      by_cases hp : dcfR inpD = 0
      · rw [project_dcf_scenario, dcfLoop] at hresD
        simp [hp] at hresD
      · rw [project_dcf_eq inpD (n + 1) (Nat.succ_pos n) hp, Option.some.injEq] at hresD
        subst hresD
        simp [hD]

/-- Witness for C8 at a concrete input. -/
theorem mos_zero_prices_equal_witness :
    inK_mos0.margin_of_safety = 0 ∧ inD_mos0.margin_of_safety = 0 ∧
    (∃ resK resD, project_kgv_scenario inK_mos0 1 = some resK ∧
      project_dcf_scenario inD_mos0 1 = some resD ∧
      resK.fair_price_mos = resK.fair_price_today ∧
      resD.fair_price_mos = resD.fair_price_today) := by
  have hresK : project_kgv_scenario inK_mos0 1 =
      some { records := kgvRecords inK_mos0 1,
             fair_price_today := kgvFuturePrice inK_mos0 1 / kgvR inK_mos0 ^ 1,
             fair_price_mos := kgvFuturePrice inK_mos0 1 / kgvR inK_mos0 ^ 1
               * (1 - inK_mos0.margin_of_safety / 100) } :=
    project_kgv_eq inK_mos0 1 (by norm_num [kgvR, inK_mos0])
  have hD : project_dcf_scenario inD_mos0 1 =
      some { records := (List.range 1).map fun j =>
               dcfStep inD_mos0 (inD_mos0.start_revenue * dcfG inD_mos0 ^ (j + 1))
                 (inD_mos0.start_shares * dcfD inD_mos0 ^ (j + 1)) (1 + j),
             fair_price_today := dcfFairToday inD_mos0 1,
             fair_price_mos := dcfFairToday inD_mos0 1
               * (1 - inD_mos0.margin_of_safety / 100) } :=
    project_dcf_eq inD_mos0 1 one_pos (by norm_num [dcfR, inD_mos0])
  refine ⟨by norm_num [inK_mos0], by norm_num [inD_mos0], _, _, hresK, hD, ?_⟩
  exact mos_zero_prices_equal inK_mos0 inD_mos0 1 _ _ (by norm_num [inK_mos0])
    (by norm_num [inD_mos0]) hresK hD

/-- C5 counterexample: at discount rate -100 the discount factor
`1 + discount_rate/100` is 0 and both projectors execute an unguarded
division by zero (Python raises ZeroDivisionError), so neither returns a
numeric result. -/
theorem projectors_raise_at_minus100 :
    inK_neg100.discount_rate = -100 ∧ inD_neg100.discount_rate = -100 ∧
    project_kgv_scenario inK_neg100 1 = none ∧
    project_dcf_scenario inD_neg100 1 = none := by
  refine ⟨rfl, rfl, ?_, ?_⟩
  · rw [project_kgv_scenario]
    norm_num [kgvR, inK_neg100]
  · rw [project_dcf_scenario, dcfLoop]
    norm_num [dcfR, inD_neg100]

/-- C5 (amended): for every numeric input whose discount factor
`1 + discountRate/100` is nonzero (every discount rate other than -100,
negative rates included) and every horizon, both projectors return a defined
numeric result; at discount rate -100 and horizon at least 1 both raise a
division-by-zero error. -/
theorem projectors_total_off_minus100 (inpK : KgvInputs) (inpD : DcfInputs)
    (years : ℕ) (hK : kgvR inpK ≠ 0) (hD : dcfR inpD ≠ 0) :
    (project_kgv_scenario inpK years).isSome = true ∧
    (project_dcf_scenario inpD years).isSome = true := by
  constructor
  · rw [project_kgv_eq inpK years (pow_ne_zero years hK)]; rfl
  · cases years with
    | zero => rw [project_dcf_zero]; rfl
    | succ n => rw [project_dcf_eq inpD (n + 1) (Nat.succ_pos n) hD]; rfl

/-- Witness for the amended C5 at concrete inputs with a negative discount
rate other than -100. -/
theorem projectors_total_witness :
    kgvR inK_base ≠ 0 ∧ dcfR inD_base ≠ 0 ∧
    (project_kgv_scenario inK_base 2).isSome = true ∧
    (project_dcf_scenario inD_base 2).isSome = true :=
  ⟨by norm_num [kgvR, inK_base], by norm_num [dcfR, inD_base],
    (projectors_total_off_minus100 inK_base inD_base 2
      (by norm_num [kgvR, inK_base]) (by norm_num [dcfR, inD_base])).1,
    (projectors_total_off_minus100 inK_base inD_base 2
      (by norm_num [kgvR, inK_base]) (by norm_num [dcfR, inD_base])).2⟩

/-- C6 counterexample: an input with zero shares and discount rate -100 is an
input with zero share count at every stage, yet the projectors raise a
division-by-zero error (on the discounting) instead of returning 0. -/
theorem zero_shares_raise_at_minus100 :
    inK_zs_neg100.start_shares = 0 ∧ inD_zs_neg100.start_shares = 0 ∧
    project_kgv_scenario inK_zs_neg100 1 = none ∧
    project_dcf_scenario inD_zs_neg100 1 = none := by
  refine ⟨rfl, rfl, ?_, ?_⟩
  · rw [project_kgv_scenario]
    norm_num [kgvR, inK_zs_neg100]
  · rw [project_dcf_scenario, dcfLoop]
    norm_num [dcfR, inD_zs_neg100]

/-- C6 (amended): when the discount factor is nonzero (discount rate other
than -100), a year record with non-positive share count carries EPS 0 in both
projectors, and a non-positive final share count makes both projectors return
fair prices of exactly 0, with no division-by-zero fault. -/
theorem zero_shares_eps_price_zero (inpK : KgvInputs) (inpD : DcfInputs)
    (years t : ℕ) (rec : YearRecord)
    (hrK : kgvR inpK ^ years ≠ 0) (hrD : dcfR inpD ≠ 0)
    (hrec : (kgvRecords inpK years).get? t = some rec) (hle : rec.shares ≤ 0) :
    rec.eps = 0 ∧
    (inpK.start_shares * kgvD inpK ^ years ≤ 0 →
      ∃ res, project_kgv_scenario inpK years = some res ∧
        res.fair_price_today = 0 ∧ res.fair_price_mos = 0) ∧
    (∀ res rec2, project_dcf_scenario inpD years = some res →
      res.records.get? t = some rec2 → rec2.shares ≤ 0 → rec2.eps = 0) ∧
    (inpD.start_shares * dcfD inpD ^ years ≤ 0 →
      ∃ res, project_dcf_scenario inpD years = some res ∧
        res.fair_price_today = 0 ∧ res.fair_price_mos = 0) := by
  refine ⟨?_, ?_, ?_, ?_⟩
  · have hlt : t < (kgvRecords inpK years).length := by
      by_contra hge
      rw [List.get?_eq_none.mpr (by omega)] at hrec
      exact Option.noConfusion hrec
    rw [kgvRecords_length] at hlt
    rw [kgvRecords_get? inpK years t (by omega), Option.some.injEq] at hrec
    subst hrec
    simp only [kgvStep] at hle ⊢
    rw [if_neg (not_lt.mpr hle)]
  · intro hfs
    refine ⟨_, project_kgv_eq inpK years hrK, ?_, ?_⟩
    · simp only [kgvFuturePrice, if_neg (not_lt.mpr hfs)]
      exact zero_div _
    · simp only [kgvFuturePrice, if_neg (not_lt.mpr hfs)]
      rw [zero_div, zero_mul]
  · intro res rec2 hres hget hle2
    cases years with
    | zero =>
      rw [project_dcf_zero, Option.some.injEq] at hres
      subst hres
      simp at hget
    | succ n =>
      rw [project_dcf_eq inpD (n + 1) (Nat.succ_pos n) hrD, Option.some.injEq] at hres
      subst hres
      simp only [List.get?_map] at hget
      by_cases hlt : t < n + 1
      · rw [List.get?_range hlt] at hget
        simp only [Option.map_some', Option.some.injEq] at hget
        subst hget
        simp only [dcfStep] at hle2 ⊢
        rw [if_neg (not_lt.mpr hle2)]
      · rw [List.get?_eq_none.mpr (by simp [List.length_range]; omega)] at hget
        exact Option.noConfusion hget
  · intro hfs
    cases years with
    | zero =>
      exact ⟨_, project_dcf_zero inpD, rfl, rfl⟩
    | succ n =>
      refine ⟨_, project_dcf_eq inpD (n + 1) (Nat.succ_pos n) hrD, ?_, ?_⟩
      · simp only [dcfFairToday, if_neg (not_lt.mpr hfs)]
      · simp only [dcfFairToday, if_neg (not_lt.mpr hfs)]
        rw [zero_mul]

/-- Witness for the amended C6 at concrete zero-share inputs. -/
theorem zero_shares_witness :
    kgvR inK_zeroShares ^ 2 ≠ 0 ∧ dcfR inD_zeroShares ≠ 0 ∧
    (kgvRecords inK_zeroShares 2).get? 1 = some (⟨1, 100, 10, 0, 0, 0⟩ : YearRecord) ∧
    ((⟨1, 100, 10, 0, 0, 0⟩ : YearRecord).shares ≤ 0) ∧
    ((⟨1, 100, 10, 0, 0, 0⟩ : YearRecord).eps = 0) ∧
    (∃ res, project_kgv_scenario inK_zeroShares 2 = some res ∧
      res.fair_price_today = 0 ∧ res.fair_price_mos = 0) ∧
    (∃ res, project_dcf_scenario inD_zeroShares 2 = some res ∧
      res.fair_price_today = 0 ∧ res.fair_price_mos = 0) := by
  have h1 : kgvR inK_zeroShares ^ 2 ≠ 0 := by norm_num [kgvR, inK_zeroShares]
  have h2 : dcfR inD_zeroShares ≠ 0 := by norm_num [dcfR, inD_zeroShares]
  have hrec : (kgvRecords inK_zeroShares 2).get? 1 =
      some (⟨1, 100, 10, 0, 0, 0⟩ : YearRecord) := by
    rw [kgvRecords_get? inK_zeroShares 2 1 (by omega)]
    norm_num [kgvStep, kgvG, kgvD, inK_zeroShares]
  have hle : ((⟨1, 100, 10, 0, 0, 0⟩ : YearRecord).shares ≤ 0) := le_refl 0
  have hmain := zero_shares_eps_price_zero inK_zeroShares inD_zeroShares 2 1 _ h1 h2 hrec hle
  exact ⟨h1, h2, hrec, hle, hmain.1,
    hmain.2.1 (by norm_num [kgvD, inK_zeroShares]),
    hmain.2.2.2 (by norm_num [dcfD, inD_zeroShares])⟩

/-- C7: for a positive horizon the KGV trace records years 0..horizon
inclusive, its year-0 record carrying exactly the initial revenue and share
count, with growth and dilution applied only on year transitions (year t
carries the t-th compounded values); the DCF trace records years 1..horizon
only, with growth and dilution applied before recording (index j carries the
(j+1)-st compounded values and year number j+1). -/
theorem trace_shapes (inpK : KgvInputs) (inpD : DcfInputs) (years t j : ℕ)
    (hy : 0 < years) (ht : t ≤ years) (hj : j < years) (hrD : dcfR inpD ≠ 0) :
    (kgvRecords inpK years).length = years + 1 ∧
    (kgvRecords inpK years).get? t =
      some (kgvStep inpK (inpK.start_revenue * kgvG inpK ^ t)
        (inpK.start_shares * kgvD inpK ^ t) t) ∧
    (kgvRecords inpK years).get? 0 =
      some (kgvStep inpK inpK.start_revenue inpK.start_shares 0) ∧
    ∃ res, project_dcf_scenario inpD years = some res ∧
      res.records.length = years ∧
      res.records.get? j =
        some (dcfStep inpD (inpD.start_revenue * dcfG inpD ^ (j + 1))
          (inpD.start_shares * dcfD inpD ^ (j + 1)) (1 + j)) := by
  refine ⟨kgvRecords_length inpK years, kgvRecords_get? inpK years t ht, ?_, ?_⟩
  · have h0 := kgvRecords_get? inpK years 0 (Nat.zero_le years)
    simpa using h0
  · refine ⟨_, project_dcf_eq inpD years hy hrD, ?_, ?_⟩
    · simp
    · simp only [List.get?_map, List.get?_range hj, Option.map_some']

/-- Witness for C7 at concrete inputs, horizon 2, year 1 and index 0. -/
theorem trace_shapes_witness :
    (0 < 2 ∧ 1 ≤ 2 ∧ 0 < 2 ∧ dcfR inD_base ≠ 0) ∧
    ((kgvRecords inK_base 2).length = 2 + 1 ∧
    (kgvRecords inK_base 2).get? 1 =
      some (kgvStep inK_base (inK_base.start_revenue * kgvG inK_base ^ 1)
        (inK_base.start_shares * kgvD inK_base ^ 1) 1) ∧
    (kgvRecords inK_base 2).get? 0 =
      some (kgvStep inK_base inK_base.start_revenue inK_base.start_shares 0) ∧
    ∃ res, project_dcf_scenario inD_base 2 = some res ∧
      res.records.length = 2 ∧
      res.records.get? 0 =
        some (dcfStep inD_base (inD_base.start_revenue * dcfG inD_base ^ (0 + 1))
          (inD_base.start_shares * dcfD inD_base ^ (0 + 1)) (1 + 0))) :=
  ⟨⟨by norm_num, by norm_num, by norm_num, by norm_num [dcfR, inD_base]⟩,
    trace_shapes inK_base inD_base 2 1 0 (by norm_num) (by norm_num) (by norm_num)
      (by norm_num [dcfR, inD_base])⟩

/-- C4: the terminal value contributes only under the strict guard
`discountRate > terminalGrowthRate`.  When the discount rate is at most the
terminal growth rate the terminal-value block yields exactly 0 and the fair
price is the discounted cash-flow sum alone; under the guard the
Gordon-growth denominator is strictly positive (never a division by zero or
a sign flip from the denominator) and a nonnegative last free cash flow
yields a nonnegative terminal value. -/
theorem terminal_value_guard (inp : DcfInputs) (years : ℕ)
    (hy : 0 < years) (hr : dcfR inp ≠ 0) :
    (inp.discount_rate ≤ inp.terminal_growth →
      (∀ f, terminalValuePv inp years f = some 0) ∧
      ∃ res, project_dcf_scenario inp years = some res ∧
        res.fair_price_today =
          if 0 < inp.start_shares * dcfD inp ^ years then
            dcfNpv inp years / (inp.start_shares * dcfD inp ^ years)
          else 0) ∧
    (inp.terminal_growth < inp.discount_rate →
      0 < inp.discount_rate / 100 - inp.terminal_growth / 100 ∧
      ∀ f, 0 ≤ f → 0 ≤ 1 + inp.terminal_growth / 100 → 0 < dcfR inp ^ years →
        ∃ tv_pv, terminalValuePv inp years f = some tv_pv ∧ 0 ≤ tv_pv) := by
  constructor
  · intro hle
    have hnot : ¬ inp.terminal_growth < inp.discount_rate := not_lt.mpr hle
    refine ⟨fun f => by rw [terminalValuePv, if_neg hnot], ?_⟩
    refine ⟨_, project_dcf_eq inp years hy hr, ?_⟩
    simp only [dcfFairToday, dcfTvPvValue, if_neg hnot, add_zero]
  · intro hgt
    have hden : 0 < inp.discount_rate / 100 - inp.terminal_growth / 100 := by
      have h1 : 0 < inp.discount_rate - inp.terminal_growth := sub_pos.mpr hgt
      have h2 : inp.discount_rate / 100 - inp.terminal_growth / 100 =
          (inp.discount_rate - inp.terminal_growth) / 100 := by ring
      rw [h2]
      positivity
    refine ⟨hden, fun f hf htg hpow => ?_⟩
    rw [terminalValuePv, if_pos hgt, if_neg (ne_of_gt hpow)]
    refine ⟨_, rfl, ?_⟩
    have htv : 0 ≤ f * (1 + inp.terminal_growth / 100) /
        (inp.discount_rate / 100 - inp.terminal_growth / 100) :=
      div_nonneg (mul_nonneg hf htg) (le_of_lt hden)
    exact div_nonneg htv (le_of_lt hpow)

/-- Witness for C4 at concrete inputs on both sides of the guard. -/
theorem terminal_value_guard_witness :
    inD_tgAbove.discount_rate ≤ inD_tgAbove.terminal_growth ∧
    terminalValuePv inD_tgAbove 1 7 = some 0 ∧
    inD_tgBelow.terminal_growth < inD_tgBelow.discount_rate ∧
    0 < inD_tgBelow.discount_rate / 100 - inD_tgBelow.terminal_growth / 100 ∧
    (∃ tv_pv, terminalValuePv inD_tgBelow 1 7 = some tv_pv ∧ 0 ≤ tv_pv) := by
  have hA := (terminal_value_guard inD_tgAbove 1 one_pos
    (by norm_num [dcfR, inD_tgAbove])).1 (by norm_num [inD_tgAbove])
  have hB := (terminal_value_guard inD_tgBelow 1 one_pos
    (by norm_num [dcfR, inD_tgBelow])).2 (by norm_num [inD_tgBelow])
  exact ⟨by norm_num [inD_tgAbove], hA.1 7, by norm_num [inD_tgBelow], hB.1,
    hB.2 7 (by norm_num) (by norm_num [inD_tgBelow]) (by norm_num [dcfR, inD_tgBelow])⟩

/-- C3: for horizon at least 1 and a nonzero discount factor, the DCF fair
price today is the sum over years 1..horizon of that year's free cash flow
(revenue of the year times the FCF margin) discounted to today, plus the
discounted terminal value, divided by the final share count when that count
is positive; when the final share count is not positive the fair price
is 0. -/
theorem dcf_result_formula (inp : DcfInputs) (years : ℕ)
    (hy : 0 < years) (hr : dcfR inp ≠ 0) :
    ∃ res, project_dcf_scenario inp years = some res ∧
      (0 < inp.start_shares * dcfD inp ^ years →
        res.fair_price_today =
          ((∑ t ∈ Finset.Icc 1 years,
              inp.start_revenue * dcfG inp ^ t * (inp.fcf_margin / 100) / dcfR inp ^ t)
            + dcfTvPvValue inp years) / (inp.start_shares * dcfD inp ^ years)) ∧
      (inp.start_shares * dcfD inp ^ years ≤ 0 → res.fair_price_today = 0) := by
  refine ⟨_, project_dcf_eq inp years hy hr, ?_, ?_⟩
  · intro hfs
    simp only [dcfFairToday, if_pos hfs, dcfNpv]
  · intro hfs
    simp only [dcfFairToday, if_neg (not_lt.mpr hfs)]

/-- Witness for C3 at a concrete input. -/
theorem dcf_result_formula_witness :
    ((0 : ℕ) < 2 ∧ dcfR inD_mos0 ≠ 0 ∧
      0 < inD_mos0.start_shares * dcfD inD_mos0 ^ 2) ∧
    (∃ res, project_dcf_scenario inD_mos0 2 = some res ∧
      res.fair_price_today =
        ((∑ t ∈ Finset.Icc 1 2,
            inD_mos0.start_revenue * dcfG inD_mos0 ^ t * (inD_mos0.fcf_margin / 100)
              / dcfR inD_mos0 ^ t)
          + dcfTvPvValue inD_mos0 2) / (inD_mos0.start_shares * dcfD inD_mos0 ^ 2)) := by
  have h1 : dcfR inD_mos0 ≠ 0 := by norm_num [dcfR, inD_mos0]
  have h2 : 0 < inD_mos0.start_shares * dcfD inD_mos0 ^ 2 := by
    norm_num [dcfD, inD_mos0]
  obtain ⟨res, hres, hpos, _⟩ := dcf_result_formula inD_mos0 2 (by norm_num) h1
  exact ⟨⟨by norm_num, h1, h2⟩, res, hres, hpos h2⟩

/-- C1 (amended): the projectors do not interpolate their assumptions between
a short-term and a long-term value; the net margin applied in every recorded
year with nonzero revenue is the one constant input value, for both
projectors, which is the degenerate interpolation whose short- and long-term
values coincide. -/
theorem constant_margin_schedule (inpK : KgvInputs) (inpD : DcfInputs)
    (years t j : ℕ) (rec1 rec2 : YearRecord) (res : ProjResult)
    (h1 : (kgvRecords inpK years).get? t = some rec1) (hu1 : rec1.umsatz ≠ 0)
    (hres : project_dcf_scenario inpD years = some res)
    (h2 : res.records.get? j = some rec2) (hu2 : rec2.umsatz ≠ 0)
    (hrD : dcfR inpD ≠ 0) :
    recordMargin rec1 = inpK.start_net_margin ∧
    recordMargin rec1 =
      interpolate inpK.start_net_margin inpK.start_net_margin t years ∧
    recordMargin rec2 = inpD.start_net_margin := by
  have hlt : t < (kgvRecords inpK years).length := by
    by_contra hge
    rw [List.get?_eq_none.mpr (by omega)] at h1
    exact Option.noConfusion h1
  rw [kgvRecords_length] at hlt
  rw [kgvRecords_get? inpK years t (by omega), Option.some.injEq] at h1
  subst h1
  have hu1' : inpK.start_revenue * kgvG inpK ^ t ≠ 0 := by
    intro h0
    apply hu1
    simp [kgvStep, h0]
  have hm1 := recordMargin_kgvStep inpK
    (inpK.start_revenue * kgvG inpK ^ t) (inpK.start_shares * kgvD inpK ^ t) t hu1'
  refine ⟨hm1, by rw [hm1, interpolate_self], ?_⟩
  cases years with
  | zero =>
    rw [project_dcf_zero, Option.some.injEq] at hres
    subst hres
    simp at h2
  | succ n =>
    rw [project_dcf_eq inpD (n + 1) (Nat.succ_pos n) hrD, Option.some.injEq] at hres
    subst hres
    simp only [List.get?_map] at h2
    by_cases hjlt : j < n + 1
    · rw [List.get?_range hjlt] at h2
      simp only [Option.map_some', Option.some.injEq] at h2
      subst h2
      have hu2' : inpD.start_revenue * dcfG inpD ^ (j + 1) ≠ 0 := by
        intro h0
        apply hu2
        simp [dcfStep, h0]
      exact recordMargin_dcfStep inpD
        (inpD.start_revenue * dcfG inpD ^ (j + 1))
        (inpD.start_shares * dcfD inpD ^ (j + 1)) (1 + j) hu2'
    · rw [List.get?_eq_none.mpr (by simp [List.length_range]; omega)] at h2
      exact Option.noConfusion h2

/-- Witness for the amended C1 at concrete inputs. -/
theorem constant_margin_witness :
    recordMargin (⟨1, 100, 10, 10, 1, 0⟩ : YearRecord) = inK_base.start_net_margin ∧
    recordMargin (⟨1, 100, 10, 10, 1, 0⟩ : YearRecord) =
      interpolate inK_base.start_net_margin inK_base.start_net_margin 1 2 ∧
    recordMargin (⟨1, 100, 10, 10, 1, 10⟩ : YearRecord) = inD_base.start_net_margin := by
  have h1 : (kgvRecords inK_base 2).get? 1 = some (⟨1, 100, 10, 10, 1, 0⟩ : YearRecord) := by
    rw [kgvRecords_get? inK_base 2 1 (by omega)]
    norm_num [kgvStep, kgvG, kgvD, inK_base]
  have hres := project_dcf_eq inD_base 2 (by norm_num) (by norm_num [dcfR, inD_base])
  have h2 : ((List.range 2).map fun j =>
        dcfStep inD_base (inD_base.start_revenue * dcfG inD_base ^ (j + 1))
          (inD_base.start_shares * dcfD inD_base ^ (j + 1)) (1 + j)).get? 0 =
      some (⟨1, 100, 10, 10, 1, 10⟩ : YearRecord) := by
    norm_num [List.get?_map, List.get?_range, dcfStep, dcfG, dcfD, inD_base]
  exact constant_margin_schedule inK_base inD_base 2 1 0 _ _ _ h1 (by norm_num) hres h2
    (by norm_num) (by norm_num [dcfR, inD_base])

/-- C1 counterexample: at short-term value 0, long-term value 10 and
horizon 1, no input to the KGV projector makes the per-year net margin
follow the claimed interpolation with margin 0 at year 0 and margin 10 at
year 1 (the margin the projector applies is the same constant every year),
so the claimed interpolation of assumption values fails on the code. -/
theorem no_interpolated_margin :
    ¬ ∃ inp : KgvInputs,
        kgvMarginAt inp 1 0 = interpolate 0 10 0 1 ∧
        kgvMarginAt inp 1 1 = interpolate 0 10 1 1 := by
  rintro ⟨inp, h0, h1⟩
  have hi0 : interpolate 0 10 0 1 = 0 := by norm_num [interpolate]
  have hi1 : interpolate 0 10 1 1 = 10 := by norm_num [interpolate]
  rw [hi0] at h0
  rw [hi1] at h1
  have g0 : (kgvRecords inp 1).get? 0 =
      some (kgvStep inp inp.start_revenue inp.start_shares 0) := by
    simpa using kgvRecords_get? inp 1 0 (by omega)
  have g1 : (kgvRecords inp 1).get? 1 =
      some (kgvStep inp (inp.start_revenue * kgvG inp) (inp.start_shares * kgvD inp) 1) := by
    have h := kgvRecords_get? inp 1 1 (by omega)
    simpa using h
  simp only [kgvMarginAt, g0] at h0
  simp only [kgvMarginAt, g1] at h1
  by_cases hRg : inp.start_revenue * kgvG inp = 0
  · rw [recordMargin] at h1
    simp [kgvStep, hRg] at h1
  · have hR : inp.start_revenue ≠ 0 := left_ne_zero_of_mul hRg
    rw [recordMargin_kgvStep inp _ _ 0 hR] at h0
    rw [recordMargin_kgvStep inp _ _ 1 hRg] at h1
    rw [h0] at h1
    norm_num at h1

end Renditerechner
